import Mathlib

/-!
Verification of the kelp order-submission risk-control layer.

This file shallowly embeds two Go source units:

* the orderbook domain primitives (package orderbook): the boolean-backed
  OrderAction, the int8-backed OrderType, their string conversions and the
  map-based parse functions;
* the volume-capping submit filter (package plugins, volumeFilter.go):
  the per-operation admit/trim/drop function volumeFilterFn, the batch
  fold and the Apply entry point.

Modelling conventions:

* Go float64 values are modelled as exact rationals.  The source performs
  only comparisons, additions, subtractions, one multiplication and one
  division on them; we note explicitly where the exact-rational model can
  diverge from binary floating point (division by a zero price).
* Go strings holding decimal numbers (the Amount and Price fields of a
  ManageSellOffer, parsed with strconv.ParseFloat) are modelled by the
  NumStr type: either a string that parses to a rational, or an
  unparseable string.  The Sprintf formatting with seven fractional
  digits is modelled as rounding to seven decimal places.
* Go map indexing, which yields the zero value of the element type when
  the key is absent, is modelled by mapGetOrZero.
* In-place mutation through pointers is made explicit: volumeFilterFn
  returns the final state of the accumulator and of the operation object
  it received, mirroring the writes the Go code performs through the
  dailyTBBAccumulator and op pointers.
-/

/-! ## Orderbook domain primitives (package orderbook) -/

/-- OrderAction is the action of buy / sell; in the source it is a named
boolean type, so we model it as Bool. -/
abbrev OrderAction := Bool

/-- ActionBuy is the false value of the boolean-backed OrderAction. -/
def ActionBuy : OrderAction := false

/-- ActionSell is the true value of the boolean-backed OrderAction. -/
def ActionSell : OrderAction := true

/-- IsBuy returns true for buy actions. -/
def OrderAction.IsBuy (a : OrderAction) : Bool := a = ActionBuy

/-- IsSell returns true for sell actions. -/
def OrderAction.IsSell (a : OrderAction) : Bool := a = ActionSell

/-- String is the stringer function for OrderAction.  The final branch is
present in the source even though a boolean can only take the two listed
values. -/
def OrderAction.String (a : OrderAction) : String :=
  if a = ActionBuy then "buy"
  else if a = ActionSell then "sell"
  else "error, unrecognized order action"

/-- Go map indexing returns the zero value of the element type when the key
is absent; mapGetOrZero reproduces that semantics over an association
list. -/
def mapGetOrZero {α : Type} (m : List (String × α)) (zero : α) (s : String) : α :=
  match m.lookup s with
  | some v => v
  | none => zero

/-- The orderActionMap lookup table. -/
def orderActionMap : List (String × OrderAction) :=
  [("buy", ActionBuy), ("sell", ActionSell)]

/-- OrderActionFromString converts from common strings to the corresponding
OrderAction by Go map indexing; the zero value of the boolean-backed
OrderAction is false, that is ActionBuy. -/
def OrderActionFromString (s : String) : OrderAction :=
  mapGetOrZero orderActionMap false s

/-- OrderType represents a type of an order; in the source it is a named
int8 type.  Only the values 0 and 1 are ever constructed and no int8
arithmetic is performed, so we model it as an integer. -/
abbrev OrderType := Int

/-- TypeMarket is the order type 0. -/
def TypeMarket : OrderType := 0

/-- TypeLimit is the order type 1. -/
def TypeLimit : OrderType := 1

/-- IsMarket returns true for market orders. -/
def OrderType.IsMarket (o : OrderType) : Bool := o = TypeMarket

/-- IsLimit returns true for limit orders. -/
def OrderType.IsLimit (o : OrderType) : Bool := o = TypeLimit

/-- String is the stringer function for OrderType. -/
def OrderType.String (o : OrderType) : String :=
  if o = TypeMarket then "market"
  else if o = TypeLimit then "limit"
  else "error, unrecognized order type"

/-- The orderTypeMap lookup table. -/
def orderTypeMap : List (String × OrderType) :=
  [("market", TypeMarket), ("limit", TypeLimit)]

/-- OrderTypeFromString converts from common strings to the corresponding
OrderType by Go map indexing; the zero value of the int8-backed OrderType
is 0, that is TypeMarket. -/
def OrderTypeFromString (s : String) : OrderType :=
  mapGetOrZero orderTypeMap 0 s

/-! ## Volume filter (package plugins, volumeFilter.go)

Go float64 is modelled as an exact rational.  The string-typed Amount and
Price fields are modelled by NumStr below. -/

/-- A horizon asset; the filter only ever compares assets for equality, so
the code/issuer pair is all we need. -/
structure Asset where
  Code : String
  Issuer : String
deriving DecidableEq, Repr

/-- Model of a Go string holding a decimal number: either it parses to the
rational q, or it is an unparseable string s.  This abstracts the decimal
text while keeping strconv.ParseFloat's success/failure behaviour. -/
inductive NumStr where
  | num (q : ℚ)
  | invalid (s : String)
deriving DecidableEq, Repr

/-- strconv.ParseFloat on a NumStr. -/
def parseFloat : NumStr → Except String ℚ
  | .num q => .ok q
  | .invalid s => .error ("cannot parse " ++ s)

/-- Rounding to seven fractional digits, the numeric effect of formatting
with fmt.Sprintf and the 7-digit fixed-point verb. -/
def round7 (q : ℚ) : ℚ := (round (q * 10000000) : ℚ) / 10000000

/-- The string produced by formatting q with seven fractional digits
re-parses to q rounded to seven fractional digits. -/
def sprintf7 (q : ℚ) : NumStr := .num (round7 q)

/-- The fields of txnbuild.ManageSellOffer that volumeFilter.go reads or
writes: the sell/buy asset pair and the string-typed Amount and Price. -/
structure ManageSellOffer where
  Selling : Asset
  Buying : Asset
  Amount : NumStr
  Price : NumStr
deriving DecidableEq, Repr

/-- The two volume filter modes. -/
inductive volumeFilterMode where
  | exact
  | ignore
deriving DecidableEq, Repr

/-- limitParameters carries the two optional caps and the mode, exactly the
slice of VolumeFilterConfig that volumeFilterFn consults. -/
structure limitParameters where
  sellBaseAssetCapInBaseUnits : Option ℚ
  sellBaseAssetCapInQuoteUnits : Option ℚ
  mode : volumeFilterMode
deriving DecidableEq, Repr

/-- In the source the daily OTB and TBB accumulators are VolumeFilterConfig
values whose two cap pointers are always non-nil (Apply constructs them
that way and volumeFilterFn dereferences them unconditionally), so the
accumulator model carries the two rationals directly. -/
structure VolumeFilterConfig where
  SellBaseAssetCapInBaseUnits : ℚ
  SellBaseAssetCapInQuoteUnits : ℚ
deriving DecidableEq, Repr

/-- Modelled from the spec: utils.IsSelling is not under src.  Per the
spec, it classifies an operation by comparing its sell/buy asset pair
against the filter's configured base/quote pair; the call site in
volumeFilterFn shows that a pair matching neither orientation yields an
error. -/
def IsSelling (sdexBase sdexQuote selling buying : Asset) : Except String Bool :=
  if selling = sdexBase ∧ buying = sdexQuote then .ok true
  else if selling = sdexQuote ∧ buying = sdexBase then .ok false
  else .error "assets do not match the trading pair"

/-- The outcome of one volumeFilterFn call.  The Go function communicates
through pointers: it mutates the TBB accumulator and (possibly) the Amount
field of the operation it was handed, and returns either that same pointer
(keep) or nil (drop).  The explicit-state rendering returns the new
accumulator, the keep decision, the final state of the caller's operation
object, and the final value of the local newAmountBeingSold that the
accumulator update used. -/
structure VolumeFilterFnResult where
  dailyTBB : VolumeFilterConfig
  keep : Bool
  op : ManageSellOffer
  newAmountBeingSold : ℚ
deriving DecidableEq, Repr

/-- Faithful rendering of volumeFilterFn: the isSelling check, the two
ParseFloat calls, then for sell-side operations the base-units check block
followed by the quote-units check block (each an admit / exact-mode-trim /
drop decision), and finally the accumulator update when both checks kept
the operation.  Each check block yields the running amount, its keep flag,
and the operation object state after any in-place Amount rewrite. -/
def volumeFilterFn (dailyOTB dailyTBBAccumulator : VolumeFilterConfig)
    (op : ManageSellOffer) (baseAsset quoteAsset : Asset) (lp : limitParameters) :
    Except String VolumeFilterFnResult :=
  match IsSelling baseAsset quoteAsset op.Selling op.Buying with
  | .error e => .error ("error when running the isSelling check: " ++ e)
  | .ok isSell =>
    match parseFloat op.Price with
    | .error e => .error ("could not convert price to float: " ++ e)
    | .ok sellPrice =>
      match parseFloat op.Amount with
      | .error e => .error ("could not convert amount to float: " ++ e)
      | .ok amountValueUnitsBeingSold =>
        if isSell then
          let base1 : ℚ × Bool × ManageSellOffer :=
            match lp.sellBaseAssetCapInBaseUnits with
            | none => (amountValueUnitsBeingSold, true, op)
            | some cap =>
              let projectedSoldInBaseUnits :=
                dailyOTB.SellBaseAssetCapInBaseUnits
                  + dailyTBBAccumulator.SellBaseAssetCapInBaseUnits
                  + amountValueUnitsBeingSold
              let keepSellingBase : Bool := decide (projectedSoldInBaseUnits ≤ cap)
              if lp.mode = volumeFilterMode.exact ∧ keepSellingBase = false then
                let newAmount := cap - dailyOTB.SellBaseAssetCapInBaseUnits
                  - dailyTBBAccumulator.SellBaseAssetCapInBaseUnits
                if newAmount > 0 then
                  (newAmount, true, { op with Amount := sprintf7 newAmount })
                else
                  (amountValueUnitsBeingSold, keepSellingBase, op)
              else
                (amountValueUnitsBeingSold, keepSellingBase, op)
          match base1 with
          | (amount1, keepSellingBase, opToReturn1) =>
            let quote1 : ℚ × Bool × ManageSellOffer :=
              match lp.sellBaseAssetCapInQuoteUnits with
              | none => (amount1, true, opToReturn1)
              | some cap =>
                let projectedSoldInQuoteUnits :=
                  dailyOTB.SellBaseAssetCapInQuoteUnits
                    + dailyTBBAccumulator.SellBaseAssetCapInQuoteUnits
                    + amount1 * sellPrice
                let keepSellingQuote : Bool := decide (projectedSoldInQuoteUnits ≤ cap)
                if lp.mode = volumeFilterMode.exact ∧ keepSellingQuote = false then
                  let newAmount := (cap - dailyOTB.SellBaseAssetCapInQuoteUnits
                    - dailyTBBAccumulator.SellBaseAssetCapInQuoteUnits) / sellPrice
                  if newAmount > 0 then
                    (newAmount, true, { opToReturn1 with Amount := sprintf7 newAmount })
                  else
                    (amount1, keepSellingQuote, opToReturn1)
                else
                  (amount1, keepSellingQuote, opToReturn1)
            match quote1 with
            | (amount2, keepSellingQuote, opToReturn2) =>
              if keepSellingBase && keepSellingQuote then
                .ok { dailyTBB :=
                        ⟨dailyTBBAccumulator.SellBaseAssetCapInBaseUnits + amount2,
                         dailyTBBAccumulator.SellBaseAssetCapInQuoteUnits + amount2 * sellPrice⟩,
                      keep := true, op := opToReturn2, newAmountBeingSold := amount2 }
              else
                .ok { dailyTBB := dailyTBBAccumulator, keep := false,
                      op := opToReturn2, newAmountBeingSold := amount2 }
        else
          .ok { dailyTBB := dailyTBBAccumulator, keep := false, op := op,
                newAmountBeingSold := amountValueUnitsBeingSold }

/-- Modelled from the spec: filterOps, the shared SubmitFilter fold, is not
under src.  Per the spec it classifies each operation as
selling-the-base-asset or not by comparing its sell/buy asset pair against
the configured base/quote pair, invokes the per-operation function only on
sell-side operations while threading the to-be-booked accumulator through
the fold, passes buy-side operations through unchanged, discards
operations the function rejects, preserves relative order, and propagates
any error, aborting the batch. -/
def filterOps (baseAsset quoteAsset : Asset)
    (fn : VolumeFilterConfig → ManageSellOffer →
      Except String (VolumeFilterConfig × Option ManageSellOffer))
    (acc : VolumeFilterConfig) :
    List ManageSellOffer → Except String (VolumeFilterConfig × List ManageSellOffer)
  | [] => .ok (acc, [])
  | op :: rest =>
    if op.Selling = baseAsset ∧ op.Buying = quoteAsset then
      match fn acc op with
      | .error e => .error e
      | .ok (acc2, none) => filterOps baseAsset quoteAsset fn acc2 rest
      | .ok (acc2, some newOp) =>
        match filterOps baseAsset quoteAsset fn acc2 rest with
        | .error e => .error e
        | .ok (accF, restF) => .ok (accF, newOp :: restF)
    else
      match filterOps baseAsset quoteAsset fn acc rest with
      | .error e => .error e
      | .ok (accF, restF) => .ok (accF, op :: restF)

/-- The closure Apply builds around volumeFilterFn: it forwards the
accumulator and operation together with the fixed OTB, assets and limit
parameters, and converts the keep / drop outcome into the optional
operation the fold expects. -/
def innerFn (dailyOTB : VolumeFilterConfig) (baseAsset quoteAsset : Asset)
    (config : limitParameters) (acc : VolumeFilterConfig) (op : ManageSellOffer) :
    Except String (VolumeFilterConfig × Option ManageSellOffer) :=
  match volumeFilterFn dailyOTB acc op baseAsset quoteAsset config with
  | .error e => .error e
  | .ok r => .ok (r.dailyTBB, if r.keep then some r.op else none)

/-- The shape the daily-volume query returns on success. -/
structure DailyVolume where
  BaseVol : ℚ
  QuoteVol : ℚ
deriving DecidableEq, Repr

/-- One invocation of the historical-volume query can fail, return a value
of the wrong dynamic type, or return a DailyVolume. -/
inductive QueryRowOutcome where
  | err (msg : String)
  | wrongShape (typeName : String)
  | dailyVolume (dv : DailyVolume)
deriving Repr

/-- volumeFilter.Apply.  The query collaborator is modelled as a map from
invocation index to outcome; the source calls QueryRow exactly once, at
the top of Apply, so only index 0 is consulted.  A failed query or a
wrong-shaped result aborts; otherwise the result seeds the daily OTB, the
TBB accumulator starts at zero, and the batch is folded with innerFn. -/
def volumeFilter.Apply (query : Nat → QueryRowOutcome)
    (config : limitParameters) (baseAsset quoteAsset : Asset)
    (ops : List ManageSellOffer) : Except String (List ManageSellOffer) :=
  match query 0 with
  | .err e => .error ("could not load dailyValuesByDate for today: " ++ e)
  | .wrongShape t =>
    .error ("incorrect type returned from DailyVolumeByDate query: " ++ t)
  | .dailyVolume dv =>
    let dailyOTB : VolumeFilterConfig := ⟨dv.BaseVol, dv.QuoteVol⟩
    let dailyTBB : VolumeFilterConfig := ⟨0, 0⟩
    match filterOps baseAsset quoteAsset
        (fun acc op => innerFn dailyOTB baseAsset quoteAsset config acc op)
        dailyTBB ops with
    | .error e => .error ("could not apply filter: " ++ e)
    | .ok (_, newOps) => .ok newOps

/-- Spec-side rendering of step (b) of the Apply algorithm, written from
the spec's words for the refinement claim about check ordering: admissible
iff the projection is within the cap; if inadmissible in exact mode,
trim to the remaining headroom when that is positive, otherwise remain
inadmissible.  Returns the keep flag and the amount the next step must
use. -/
def specBaseCheck (cap : Option ℚ) (mode : volumeFilterMode)
    (otbBase tbbBase a : ℚ) : Bool × ℚ :=
  match cap with
  | none => (true, a)
  | some c =>
    if otbBase + tbbBase + a ≤ c then (true, a)
    else if mode = volumeFilterMode.exact then
      let trimmed := c - otbBase - tbbBase
      if trimmed > 0 then (true, trimmed) else (false, a)
    else (false, a)

/-- Spec-side rendering of step (c) of the Apply algorithm, written from
the spec's words: the quote-units projection is recomputed from the
possibly already-trimmed amount, and trimming solves for the amount from
the quote headroom divided by the price. -/
def specQuoteCheck (cap : Option ℚ) (mode : volumeFilterMode)
    (otbQuote tbbQuote price a : ℚ) : Bool × ℚ :=
  match cap with
  | none => (true, a)
  | some c =>
    if otbQuote + tbbQuote + a * price ≤ c then (true, a)
    else if mode = volumeFilterMode.exact then
      let newA := (c - otbQuote - tbbQuote) / price
      if newA > 0 then (true, newA) else (false, a)
    else (false, a)

/-- The base-units check block of volumeFilterFn, extracted verbatim for
reasoning: given the configured cap, the mode, the two base-unit tallies,
the parsed amount and the operation object, it yields the running amount,
the keep flag and the operation state after any in-place rewrite.  The
lemma volumeFilterFn_sell_eq proves the extraction faithful. -/
def baseCheckStep (cap : Option ℚ) (mode : volumeFilterMode)
    (otbBase tbbBase a : ℚ) (op : ManageSellOffer) : ℚ × Bool × ManageSellOffer :=
  match cap with
  | none => (a, true, op)
  | some c =>
    let projected := otbBase + tbbBase + a
    let keepSellingBase : Bool := decide (projected ≤ c)
    if mode = volumeFilterMode.exact ∧ keepSellingBase = false then
      let newAmount := c - otbBase - tbbBase
      if newAmount > 0 then (newAmount, true, { op with Amount := sprintf7 newAmount })
      else (a, keepSellingBase, op)
    else (a, keepSellingBase, op)

/-- The quote-units check block of volumeFilterFn, extracted verbatim for
reasoning; it receives the running amount the base-units block produced. -/
def quoteCheckStep (cap : Option ℚ) (mode : volumeFilterMode)
    (otbQuote tbbQuote price a : ℚ) (op : ManageSellOffer) : ℚ × Bool × ManageSellOffer :=
  match cap with
  | none => (a, true, op)
  | some c =>
    let projected := otbQuote + tbbQuote + a * price
    let keepSellingQuote : Bool := decide (projected ≤ c)
    if mode = volumeFilterMode.exact ∧ keepSellingQuote = false then
      let newAmount := (c - otbQuote - tbbQuote) / price
      if newAmount > 0 then (newAmount, true, { op with Amount := sprintf7 newAmount })
      else (a, keepSellingQuote, op)
    else (a, keepSellingQuote, op)

/-- The sell branch of volumeFilterFn assembled from the two extracted
check blocks: run the base-units block, feed its amount into the
quote-units block, keep the operation only if both flags are set, and
update the accumulator with the final amount. -/
def sellCheckOutcome (otb tbb : VolumeFilterConfig) (lp : limitParameters)
    (p a : ℚ) (op : ManageSellOffer) : VolumeFilterFnResult :=
  match baseCheckStep lp.sellBaseAssetCapInBaseUnits lp.mode
      otb.SellBaseAssetCapInBaseUnits tbb.SellBaseAssetCapInBaseUnits a op with
  | (a1, kb, op1) =>
    match quoteCheckStep lp.sellBaseAssetCapInQuoteUnits lp.mode
        otb.SellBaseAssetCapInQuoteUnits tbb.SellBaseAssetCapInQuoteUnits p a1 op1 with
    | (a2, kq, op2) =>
      if kb && kq then
        { dailyTBB := ⟨tbb.SellBaseAssetCapInBaseUnits + a2,
                       tbb.SellBaseAssetCapInQuoteUnits + a2 * p⟩,
          keep := true, op := op2, newAmountBeingSold := a2 }
      else
        { dailyTBB := tbb, keep := false, op := op2, newAmountBeingSold := a2 }

/-- Decidable equality for Except values with decidable components, used
to evaluate the model at concrete inputs. -/
instance exceptDecEq {ε α : Type} [DecidableEq ε] [DecidableEq α] :
    DecidableEq (Except ε α) := fun x y =>
  match x, y with
  | .error e1, .error e2 =>
    if h : e1 = e2 then isTrue (by rw [h]) else isFalse (by intro hh; cases hh; exact h rfl)
  | .ok a1, .ok a2 =>
    if h : a1 = a2 then isTrue (by rw [h]) else isFalse (by intro hh; cases hh; exact h rfl)
  | .error _, .ok _ => isFalse (by intro hh; cases hh)
  | .ok _, .error _ => isFalse (by intro hh; cases hh)

/-- Concrete base asset used in witness evaluations. -/
def assetXLM : Asset := ⟨"XLM", ""⟩

/-- Concrete quote asset used in witness evaluations. -/
def assetUSD : Asset := ⟨"USD", "GA"⟩

/-- The rational a NumStr denotes, zero for unparseable strings; used to
sum the amounts of emitted operations. -/
def numVal : NumStr → ℚ
  | .num q => q
  | .invalid _ => 0

/-- Sum of the amounts of a list of operations. -/
def soldBaseAmounts (ops : List ManageSellOffer) : ℚ :=
  (ops.map (fun o => numVal o.Amount)).sum

/-- A well-formed sell-side operation for the given pair: it sells the base
asset against the quote asset, its price parses to a positive rational and
its amount parses. -/
def goodSellOp (baseAsset quoteAsset : Asset) (op : ManageSellOffer) : Prop :=
  op.Selling = baseAsset ∧ op.Buying = quoteAsset
    ∧ (∃ p : ℚ, op.Price = .num p ∧ 0 < p) ∧ ∃ a : ℚ, op.Amount = .num a

/-- A buy-side operation for the configured pair: one the fold classifies
as not selling the base asset. -/
def isBuySideOp (baseAsset quoteAsset : Asset) (op : ManageSellOffer) : Bool :=
  !(decide (op.Selling = baseAsset ∧ op.Buying = quoteAsset))

/-! ## Claims C1 and C9 -/

/-- C1 counterexample: parsing the unrecognized strings "unknown-x" yields
ActionBuy and TypeMarket, which are exactly the values obtained by parsing
the valid strings "buy" and "market" — the unrecognized-input result is
indistinguishable from a valid value, so the parse functions do silently
default. -/
theorem unrecognized_parse_collides_with_valid :
    OrderActionFromString "unknown-x" = ActionBuy
    ∧ OrderActionFromString "unknown-x" = OrderActionFromString "buy"
    ∧ OrderTypeFromString "unknown-x" = TypeMarket
    ∧ OrderTypeFromString "unknown-x" = OrderTypeFromString "market" := by
  refine ⟨rfl, rfl, rfl, rfl⟩

/-- C1 amended: for every input string that is not a recognized
direction/style name, OrderActionFromString returns the zero value
ActionBuy and OrderTypeFromString returns the zero value TypeMarket — the
functions silently default to a valid value rather than returning a
distinguishable unrecognized-value result. -/
theorem unrecognized_parse_returns_zero_value (s : String)
    (hb : s ≠ "buy") (hs : s ≠ "sell")
    (hm : s ≠ "market") (hl : s ≠ "limit") :
    OrderActionFromString s = ActionBuy ∧ OrderTypeFromString s = TypeMarket := by
  constructor
  · unfold OrderActionFromString mapGetOrZero orderActionMap
    have h1 : (s == "buy") = false := by simpa using hb
    have h2 : (s == "sell") = false := by simpa using hs
    simp [List.lookup, h1, h2, ActionBuy]
  · unfold OrderTypeFromString mapGetOrZero orderTypeMap
    have h1 : (s == "market") = false := by simpa using hm
    have h2 : (s == "limit") = false := by simpa using hl
    simp [List.lookup, h1, h2, TypeMarket]

/-- C1 witness: the amended theorem applied at the concrete unrecognized
input "abc". -/
theorem unrecognized_parse_returns_zero_value_witness :
    OrderActionFromString "abc" = ActionBuy ∧ OrderTypeFromString "abc" = TypeMarket :=
  unrecognized_parse_returns_zero_value "abc"
    (by decide) (by decide) (by decide) (by decide)

/-- C9: for every valid direction value and every valid style value,
parsing the string produced by the stringer yields the value back.  Every
boolean is a valid OrderAction; the valid OrderType values are TypeMarket
and TypeLimit. -/
theorem parse_toString_roundtrip :
    (∀ a : OrderAction, OrderActionFromString (OrderAction.String a) = a)
    ∧ (∀ o : OrderType, o = TypeMarket ∨ o = TypeLimit →
        OrderTypeFromString (OrderType.String o) = o) := by
  constructor
  · intro a
    cases a <;> rfl
  · intro o h
    rcases h with h | h <;> subst h <;> rfl

/-- C9 witness: the round-trip theorem applied at the concrete values
ActionSell and TypeLimit. -/
theorem parse_toString_roundtrip_witness :
    OrderActionFromString (OrderAction.String ActionSell) = ActionSell
    ∧ OrderTypeFromString (OrderType.String TypeLimit) = TypeLimit :=
  ⟨parse_toString_roundtrip.1 ActionSell,
   parse_toString_roundtrip.2 TypeLimit (Or.inr rfl)⟩

/-! ## Per-operation characterization -/

/-- For a sell-side operation with parseable amount and price,
volumeFilterFn is the composition of the extracted base-units and
quote-units check blocks. -/
lemma volumeFilterFn_sell_eq (otb tbb : VolumeFilterConfig) (b q : Asset)
    (lp : limitParameters) (a p : ℚ) :
    volumeFilterFn otb tbb ⟨b, q, .num a, .num p⟩ b q lp
      = .ok (sellCheckOutcome otb tbb lp p a ⟨b, q, .num a, .num p⟩) := by
  rcases lp with ⟨cb, cq, m⟩
  rcases cb with _ | c1 <;> rcases cq with _ | c2 <;>
    simp [volumeFilterFn, IsSelling, sellCheckOutcome, baseCheckStep, quoteCheckStep,
      parseFloat] <;>
    split_ifs <;> simp_all

/-- Destructured form of the sell branch: once the outputs of the two
check blocks are named, the outcome is the keep/drop combination. -/
lemma sellCheckOutcome_cases (otb tbb : VolumeFilterConfig) (lp : limitParameters)
    (p a : ℚ) (op : ManageSellOffer) (a1 a2 : ℚ) (kb kq : Bool)
    (op1 op2 : ManageSellOffer)
    (hb : baseCheckStep lp.sellBaseAssetCapInBaseUnits lp.mode
      otb.SellBaseAssetCapInBaseUnits tbb.SellBaseAssetCapInBaseUnits a op
      = (a1, kb, op1))
    (hq : quoteCheckStep lp.sellBaseAssetCapInQuoteUnits lp.mode
      otb.SellBaseAssetCapInQuoteUnits tbb.SellBaseAssetCapInQuoteUnits p a1 op1
      = (a2, kq, op2)) :
    sellCheckOutcome otb tbb lp p a op
      = if kb && kq then
          ⟨⟨tbb.SellBaseAssetCapInBaseUnits + a2,
            tbb.SellBaseAssetCapInQuoteUnits + a2 * p⟩, true, op2, a2⟩
        else ⟨tbb, false, op2, a2⟩ := by
  unfold sellCheckOutcome
  simp only [hb]
  simp only [hq]

/-- C10: in exact mode the per-operation filter rewrites the Amount field
of the caller's operation object in place; here the base-units trim
succeeds (80 + 0 + 30 over the cap 100 trims to 20) but the quote-units
check then drops the operation (600 + 20 over the cap 500 with no positive
quote headroom), and the operation object comes back with the rewritten
amount 20 even though it was dropped (keep = false) and the accumulator
was left untouched. -/
theorem dropped_op_amount_rewritten_in_place :
    volumeFilterFn ⟨80, 600⟩ ⟨0, 0⟩
        ⟨assetXLM, assetUSD, .num 30, .num 1⟩ assetXLM assetUSD
        ⟨some 100, some 500, volumeFilterMode.exact⟩
      = .ok ⟨⟨0, 0⟩, false, ⟨assetXLM, assetUSD, .num 20, .num 1⟩, 20⟩
    ∧ NumStr.num 20 ≠ NumStr.num 30 := by
  constructor
  · rw [volumeFilterFn_sell_eq]
    norm_num [sellCheckOutcome, baseCheckStep, quoteCheckStep, sprintf7, round7, round_eq,
      decide_eq_true_eq, decide_eq_false_iff_not]
  · simp only [ne_eq, NumStr.num.injEq]
    norm_num

/-- Rounding to seven fractional digits moves a value by at most half of
the last digit. -/
lemma abs_sub_round7 (q : ℚ) : |q - round7 q| ≤ 1 / 20000000 := by
  have h := abs_sub_round (q * 10000000)
  unfold round7
  have heq : q - (round (q * 10000000) : ℚ) / 10000000
      = (q * 10000000 - (round (q * 10000000) : ℚ)) / 10000000 := by ring
  rw [heq, abs_div]
  rw [show |(10000000 : ℚ)| = 10000000 by norm_num]
  rw [div_le_div_iff (by norm_num) (by norm_num)]
  nlinarith [h]

/-- Rounding to seven fractional digits preserves nonnegativity. -/
lemma round7_nonneg {q : ℚ} (hq : 0 ≤ q) : 0 ≤ round7 q := by
  unfold round7
  apply div_nonneg _ (by norm_num)
  have hz : (0 : ℤ) ≤ round (q * 10000000) := by
    rw [round_eq]
    apply Int.floor_nonneg.2
    nlinarith
  exact_mod_cast hz

/-- C2 counterexample: in exact mode with a base cap of one billionth, a
sell of amount 1 breaches the cap, the headroom (one billionth) is
strictly positive, so the operation is trimmed and kept — but formatting
the headroom to seven fractional digits yields the zero amount string, so
the kept operation was rewritten to a zero amount, contradicting the
claim that an operation is never rewritten to a zero or negative
amount. -/
theorem exact_trim_rewrites_amount_to_zero_string :
    volumeFilterFn ⟨0, 0⟩ ⟨0, 0⟩ ⟨assetXLM, assetUSD, .num 1, .num 1⟩ assetXLM assetUSD
        ⟨some (1/1000000000), none, volumeFilterMode.exact⟩
      = .ok ⟨⟨1/1000000000, 1/1000000000⟩, true,
             ⟨assetXLM, assetUSD, .num 0, .num 1⟩, 1/1000000000⟩
    ∧ (0 : ℚ) < 1/1000000000
    ∧ round7 (1/1000000000) = 0 := by
  refine ⟨?_, by norm_num, ?_⟩
  · rw [volumeFilterFn_sell_eq]
    norm_num [sellCheckOutcome, baseCheckStep, quoteCheckStep, sprintf7, round7, round_eq,
      decide_eq_true_eq, decide_eq_false_iff_not]
  · norm_num [round7, round_eq]

/-- C2 amended: in exact mode, each configured cap's check — the
base-units site and the quote-units site, whatever the other cap's
configuration — treats a sell-side operation the same way.  If the
projected total is within the cap the check passes with the amount and
the operation object unchanged.  If it breaches the cap and the
remaining headroom (cap minus OTB minus TBB for the base site, the same
difference divided by the price for the quote site) is positive, the
operation's amount is rewritten to that headroom formatted to seven
fractional digits — never a negative amount, though the formatted
string rounds to zero when the headroom is below half of the last
digit — and the check passes with the unrounded headroom as the running
amount.  If the headroom is not positive the check fails and
volumeFilterFn drops the operation with the accumulator untouched,
whatever the other cap's configuration.  The first conjunct ties the two
check blocks named here to volumeFilterFn itself. -/
theorem exact_mode_cap_check_trichotomy (otb tbb : VolumeFilterConfig) (b q : Asset)
    (a p : ℚ) :
    (∀ lp : limitParameters,
      volumeFilterFn otb tbb ⟨b, q, .num a, .num p⟩ b q lp
        = .ok (sellCheckOutcome otb tbb lp p a ⟨b, q, .num a, .num p⟩))
    ∧ (∀ cb : ℚ,
      (otb.SellBaseAssetCapInBaseUnits + tbb.SellBaseAssetCapInBaseUnits + a ≤ cb →
        baseCheckStep (some cb) volumeFilterMode.exact otb.SellBaseAssetCapInBaseUnits
          tbb.SellBaseAssetCapInBaseUnits a ⟨b, q, .num a, .num p⟩
          = (a, true, ⟨b, q, .num a, .num p⟩))
      ∧ (cb < otb.SellBaseAssetCapInBaseUnits + tbb.SellBaseAssetCapInBaseUnits + a →
          0 < cb - otb.SellBaseAssetCapInBaseUnits - tbb.SellBaseAssetCapInBaseUnits →
        baseCheckStep (some cb) volumeFilterMode.exact otb.SellBaseAssetCapInBaseUnits
          tbb.SellBaseAssetCapInBaseUnits a ⟨b, q, .num a, .num p⟩
          = (cb - otb.SellBaseAssetCapInBaseUnits - tbb.SellBaseAssetCapInBaseUnits, true,
             ⟨b, q, sprintf7 (cb - otb.SellBaseAssetCapInBaseUnits
               - tbb.SellBaseAssetCapInBaseUnits), .num p⟩)
        ∧ 0 ≤ round7 (cb - otb.SellBaseAssetCapInBaseUnits
            - tbb.SellBaseAssetCapInBaseUnits))
      ∧ (cb < otb.SellBaseAssetCapInBaseUnits + tbb.SellBaseAssetCapInBaseUnits + a →
          cb - otb.SellBaseAssetCapInBaseUnits - tbb.SellBaseAssetCapInBaseUnits ≤ 0 →
        baseCheckStep (some cb) volumeFilterMode.exact otb.SellBaseAssetCapInBaseUnits
          tbb.SellBaseAssetCapInBaseUnits a ⟨b, q, .num a, .num p⟩
          = (a, false, ⟨b, q, .num a, .num p⟩)
        ∧ ∀ (cq : Option ℚ) (r : VolumeFilterFnResult),
            volumeFilterFn otb tbb ⟨b, q, .num a, .num p⟩ b q
              ⟨some cb, cq, volumeFilterMode.exact⟩ = .ok r →
            r.keep = false ∧ r.dailyTBB = tbb))
    ∧ (∀ (cq a1 : ℚ) (op1 : ManageSellOffer),
      (otb.SellBaseAssetCapInQuoteUnits + tbb.SellBaseAssetCapInQuoteUnits + a1 * p ≤ cq →
        quoteCheckStep (some cq) volumeFilterMode.exact otb.SellBaseAssetCapInQuoteUnits
          tbb.SellBaseAssetCapInQuoteUnits p a1 op1 = (a1, true, op1))
      ∧ (cq < otb.SellBaseAssetCapInQuoteUnits + tbb.SellBaseAssetCapInQuoteUnits
            + a1 * p →
          0 < (cq - otb.SellBaseAssetCapInQuoteUnits
            - tbb.SellBaseAssetCapInQuoteUnits) / p →
        quoteCheckStep (some cq) volumeFilterMode.exact otb.SellBaseAssetCapInQuoteUnits
          tbb.SellBaseAssetCapInQuoteUnits p a1 op1
          = ((cq - otb.SellBaseAssetCapInQuoteUnits
                - tbb.SellBaseAssetCapInQuoteUnits) / p,
             true,
             { op1 with Amount := sprintf7 ((cq - otb.SellBaseAssetCapInQuoteUnits
               - tbb.SellBaseAssetCapInQuoteUnits) / p) })
        ∧ 0 ≤ round7 ((cq - otb.SellBaseAssetCapInQuoteUnits
            - tbb.SellBaseAssetCapInQuoteUnits) / p))
      ∧ (cq < otb.SellBaseAssetCapInQuoteUnits + tbb.SellBaseAssetCapInQuoteUnits
            + a1 * p →
          (cq - otb.SellBaseAssetCapInQuoteUnits
            - tbb.SellBaseAssetCapInQuoteUnits) / p ≤ 0 →
        quoteCheckStep (some cq) volumeFilterMode.exact otb.SellBaseAssetCapInQuoteUnits
          tbb.SellBaseAssetCapInQuoteUnits p a1 op1 = (a1, false, op1)))
    ∧ (∀ (cb : Option ℚ) (cq : ℚ) (r : VolumeFilterFnResult),
        volumeFilterFn otb tbb ⟨b, q, .num a, .num p⟩ b q
          ⟨cb, some cq, volumeFilterMode.exact⟩ = .ok r →
        cq < otb.SellBaseAssetCapInQuoteUnits + tbb.SellBaseAssetCapInQuoteUnits
          + (baseCheckStep cb volumeFilterMode.exact otb.SellBaseAssetCapInBaseUnits
              tbb.SellBaseAssetCapInBaseUnits a ⟨b, q, .num a, .num p⟩).1 * p →
        (cq - otb.SellBaseAssetCapInQuoteUnits
          - tbb.SellBaseAssetCapInQuoteUnits) / p ≤ 0 →
        r.keep = false ∧ r.dailyTBB = tbb) := by
  refine ⟨fun lp => volumeFilterFn_sell_eq otb tbb b q lp a p, ?_, ?_, ?_⟩
  · intro cb
    refine ⟨?_, ?_, ?_⟩
    · intro h
      have hk : decide (otb.SellBaseAssetCapInBaseUnits
          + tbb.SellBaseAssetCapInBaseUnits + a ≤ cb) = true := decide_eq_true h
      simp [baseCheckStep, hk]
    · intro h hpos
      have hk : decide (otb.SellBaseAssetCapInBaseUnits
          + tbb.SellBaseAssetCapInBaseUnits + a ≤ cb) = false :=
        decide_eq_false (not_le.2 h)
      exact ⟨by simp [baseCheckStep, hk, hpos], round7_nonneg (le_of_lt hpos)⟩
    · intro h hnp
      have hk : decide (otb.SellBaseAssetCapInBaseUnits
          + tbb.SellBaseAssetCapInBaseUnits + a ≤ cb) = false :=
        decide_eq_false (not_le.2 h)
      have hnp2 : ¬ (0 < cb - otb.SellBaseAssetCapInBaseUnits
          - tbb.SellBaseAssetCapInBaseUnits) := not_lt.2 hnp
      have hbeq : baseCheckStep (some cb) volumeFilterMode.exact
          otb.SellBaseAssetCapInBaseUnits tbb.SellBaseAssetCapInBaseUnits a
          ⟨b, q, .num a, .num p⟩ = (a, false, ⟨b, q, .num a, .num p⟩) := by
        simp [baseCheckStep, hk, hnp2]
      refine ⟨hbeq, ?_⟩
      intro cq r hvr
      rw [volumeFilterFn_sell_eq] at hvr
      rcases hq : quoteCheckStep cq volumeFilterMode.exact
          otb.SellBaseAssetCapInQuoteUnits tbb.SellBaseAssetCapInQuoteUnits p a
          ⟨b, q, .num a, .num p⟩ with ⟨a2, kq, op2⟩
      rw [sellCheckOutcome_cases otb tbb ⟨some cb, cq, volumeFilterMode.exact⟩ p a
        ⟨b, q, .num a, .num p⟩ a a2 false kq ⟨b, q, .num a, .num p⟩ op2 hbeq hq] at hvr
      simp only [Bool.false_and, Bool.false_eq_true, if_false, ite_false] at hvr
      injection hvr with hvr
      subst hvr
      exact ⟨rfl, rfl⟩
  · intro cq a1 op1
    refine ⟨?_, ?_, ?_⟩
    · intro h
      have hk : decide (otb.SellBaseAssetCapInQuoteUnits
          + tbb.SellBaseAssetCapInQuoteUnits + a1 * p ≤ cq) = true := decide_eq_true h
      simp [quoteCheckStep, hk]
    · intro h hpos
      have hk : decide (otb.SellBaseAssetCapInQuoteUnits
          + tbb.SellBaseAssetCapInQuoteUnits + a1 * p ≤ cq) = false :=
        decide_eq_false (not_le.2 h)
      exact ⟨by simp [quoteCheckStep, hk, hpos], round7_nonneg (le_of_lt hpos)⟩
    · intro h hnp
      have hk : decide (otb.SellBaseAssetCapInQuoteUnits
          + tbb.SellBaseAssetCapInQuoteUnits + a1 * p ≤ cq) = false :=
        decide_eq_false (not_le.2 h)
      have hnp2 : ¬ (0 < (cq - otb.SellBaseAssetCapInQuoteUnits
          - tbb.SellBaseAssetCapInQuoteUnits) / p) := not_lt.2 hnp
      simp [quoteCheckStep, hk, hnp2]
  · intro cb cq r hvr hbreach hnp
    rcases hb : baseCheckStep cb volumeFilterMode.exact
        otb.SellBaseAssetCapInBaseUnits tbb.SellBaseAssetCapInBaseUnits a
        ⟨b, q, .num a, .num p⟩ with ⟨a1, kb, op1⟩
    rw [hb] at hbreach
    simp only at hbreach
    have hk : decide (otb.SellBaseAssetCapInQuoteUnits
        + tbb.SellBaseAssetCapInQuoteUnits + a1 * p ≤ cq) = false :=
      decide_eq_false (not_le.2 hbreach)
    have hnp2 : ¬ (0 < (cq - otb.SellBaseAssetCapInQuoteUnits
        - tbb.SellBaseAssetCapInQuoteUnits) / p) := not_lt.2 hnp
    have hqeq : quoteCheckStep (some cq) volumeFilterMode.exact
        otb.SellBaseAssetCapInQuoteUnits tbb.SellBaseAssetCapInQuoteUnits p a1 op1
        = (a1, false, op1) := by
      simp [quoteCheckStep, hk, hnp2]
    rw [volumeFilterFn_sell_eq] at hvr
    rw [sellCheckOutcome_cases otb tbb ⟨cb, some cq, volumeFilterMode.exact⟩ p a
      ⟨b, q, .num a, .num p⟩ a1 a1 kb false op1 op1 hb hqeq] at hvr
    simp only [Bool.and_false, Bool.false_eq_true, if_false, ite_false] at hvr
    injection hvr with hvr
    subst hvr
    exact ⟨rfl, rfl⟩

/-- C2 witness: the trichotomy applied at both check sites — Scenario A of
the spec for the base-units check (OTB base 80, cap 100, amount 30: the
projection 110 breaches the cap, the headroom 20 is positive, the amount
is rewritten to 20 at seven digits) and Scenario D for the quote-units
check (OTB quote 450, cap 500, price 10, incoming amount 10: the
projection 550 breaches the cap, the headroom 5 is positive, the amount
is rewritten to 5 at seven digits). -/
theorem exact_mode_cap_check_trichotomy_witness :
    (baseCheckStep (some 100) volumeFilterMode.exact 80 0 30
        ⟨assetXLM, assetUSD, .num 30, .num 10⟩
      = (100 - 80 - 0, true,
         ⟨assetXLM, assetUSD, sprintf7 (100 - 80 - 0), .num 10⟩)
      ∧ 0 ≤ round7 (100 - 80 - 0))
    ∧ (quoteCheckStep (some 500) volumeFilterMode.exact 450 0 10 10
        ⟨assetXLM, assetUSD, .num 10, .num 10⟩
      = ((500 - 450 - 0) / 10, true,
         ⟨assetXLM, assetUSD, sprintf7 ((500 - 450 - 0) / 10), .num 10⟩)
      ∧ 0 ≤ round7 ((500 - 450 - 0) / 10)) :=
  ⟨((exact_mode_cap_check_trichotomy ⟨80, 800⟩ ⟨0, 0⟩ assetXLM assetUSD 30 10).2.1 100).2.1
      (by norm_num) (by norm_num),
   ((exact_mode_cap_check_trichotomy ⟨0, 450⟩ ⟨0, 0⟩ assetXLM assetUSD 30 10).2.2.1 500 10
      ⟨assetXLM, assetUSD, .num 10, .num 10⟩).2.1 (by norm_num) (by norm_num)⟩

/-- C7: in ignore mode, a sell-side operation whose original amount pushes
the projected volume over a configured cap (base-units or quote-units,
using the original amount in both projections since no rewrite takes
place) is dropped entirely: the result keeps nothing, the operation
object is returned exactly as it came in (no amount rewrite is
attempted), and the accumulator is untouched. -/
theorem ignore_mode_drops_breaching_op (otb tbb : VolumeFilterConfig) (b q : Asset)
    (cb cq : Option ℚ) (a p : ℚ)
    (hbreach :
      (∃ c, cb = some c
        ∧ c < otb.SellBaseAssetCapInBaseUnits + tbb.SellBaseAssetCapInBaseUnits + a)
      ∨ (∃ c, cq = some c
        ∧ c < otb.SellBaseAssetCapInQuoteUnits + tbb.SellBaseAssetCapInQuoteUnits + a * p)) :
    volumeFilterFn otb tbb ⟨b, q, .num a, .num p⟩ b q ⟨cb, cq, volumeFilterMode.ignore⟩
      = .ok ⟨tbb, false, ⟨b, q, .num a, .num p⟩, a⟩ := by
  rw [volumeFilterFn_sell_eq]
  rcases hbreach with ⟨c, hc, hlt⟩ | ⟨c, hc, hlt⟩
  · subst hc
    have hk : decide (otb.SellBaseAssetCapInBaseUnits
        + tbb.SellBaseAssetCapInBaseUnits + a ≤ c) = false :=
      decide_eq_false (not_le.2 hlt)
    rcases cq with _ | c2 <;>
      simp [sellCheckOutcome, baseCheckStep, quoteCheckStep, hk]
  · subst hc
    have hk : decide (otb.SellBaseAssetCapInQuoteUnits
        + tbb.SellBaseAssetCapInQuoteUnits + a * p ≤ c) = false :=
      decide_eq_false (not_le.2 hlt)
    rcases cb with _ | c1 <;>
      simp [sellCheckOutcome, baseCheckStep, quoteCheckStep, hk]

/-- C7 witness: Scenario B of the spec (OTB base 80, cap 100, ignore mode,
amount 30): the operation is dropped whole, its amount untouched and the
accumulator unchanged. -/
theorem ignore_mode_drops_breaching_op_witness :
    volumeFilterFn ⟨80, 800⟩ ⟨0, 0⟩ ⟨assetXLM, assetUSD, .num 30, .num 10⟩ assetXLM assetUSD
        ⟨some 100, none, volumeFilterMode.ignore⟩
      = .ok ⟨⟨0, 0⟩, false, ⟨assetXLM, assetUSD, .num 30, .num 10⟩, 30⟩ :=
  ignore_mode_drops_breaching_op ⟨80, 800⟩ ⟨0, 0⟩ assetXLM assetUSD
    (some 100) none 30 10 (Or.inl ⟨100, rfl, by norm_num⟩)

/-- The base-units check either passes the amount through unchanged or
replaces it with a strictly positive trim. -/
lemma baseCheckStep_amount_cases (cap : Option ℚ) (m : volumeFilterMode)
    (otbB tbbB a : ℚ) (op : ManageSellOffer) :
    (baseCheckStep cap m otbB tbbB a op).1 = a
      ∨ 0 < (baseCheckStep cap m otbB tbbB a op).1 := by
  cases cap with
  | none => exact Or.inl rfl
  | some c =>
    simp only [baseCheckStep]
    split_ifs with h1 h2
    · exact Or.inr h2
    · exact Or.inl rfl
    · exact Or.inl rfl

/-- The quote-units check either passes the amount through unchanged or
replaces it with a strictly positive trim. -/
lemma quoteCheckStep_amount_cases (cap : Option ℚ) (m : volumeFilterMode)
    (otbQ tbbQ price a : ℚ) (op : ManageSellOffer) :
    (quoteCheckStep cap m otbQ tbbQ price a op).1 = a
      ∨ 0 < (quoteCheckStep cap m otbQ tbbQ price a op).1 := by
  cases cap with
  | none => exact Or.inl rfl
  | some c =>
    simp only [quoteCheckStep]
    split_ifs with h1 h2
    · exact Or.inr h2
    · exact Or.inl rfl
    · exact Or.inl rfl

/-- C6 counterexample: a sell operation whose amount string parses to a
negative number (-2) is admitted (projected volume 0 + 3 - 2 is under the
cap 100) and the accumulator then decreases from (3, 3) to (1, 1): the
TBB accumulator is not monotonically non-decreasing for every processed
sell operation. -/
theorem kept_negative_amount_decreases_tbb :
    volumeFilterFn ⟨0, 0⟩ ⟨3, 3⟩ ⟨assetXLM, assetUSD, .num (-2), .num 1⟩ assetXLM assetUSD
        ⟨some 100, none, volumeFilterMode.exact⟩
      = .ok ⟨⟨1, 1⟩, true, ⟨assetXLM, assetUSD, .num (-2), .num 1⟩, -2⟩
    ∧ (1 : ℚ) < 3 := by
  constructor
  · rw [volumeFilterFn_sell_eq]
    norm_num [sellCheckOutcome, baseCheckStep, quoteCheckStep,
      decide_eq_true_eq, decide_eq_false_iff_not]
  · norm_num

/-- C6 amended: during one volumeFilterFn call on a sell-side operation,
the accumulator is modified exactly when the operation is kept — a
dropped operation leaves TBB completely unchanged, and a kept operation
adds its final amount (and amount times price) to TBB; when the parsed
amount is nonnegative the booked amount is nonnegative, so for
nonnegative amounts (and prices, for the quote tally) TBB is
non-decreasing. -/
theorem tbb_modified_only_on_keep (otb tbb : VolumeFilterConfig) (b q : Asset)
    (lp : limitParameters) (a p : ℚ) :
    ∃ r, volumeFilterFn otb tbb ⟨b, q, .num a, .num p⟩ b q lp = .ok r
      ∧ (r.keep = false → r.dailyTBB = tbb)
      ∧ (r.keep = true →
          r.dailyTBB.SellBaseAssetCapInBaseUnits
            = tbb.SellBaseAssetCapInBaseUnits + r.newAmountBeingSold
          ∧ r.dailyTBB.SellBaseAssetCapInQuoteUnits
            = tbb.SellBaseAssetCapInQuoteUnits + r.newAmountBeingSold * p)
      ∧ (0 ≤ a → 0 ≤ r.newAmountBeingSold) := by
  rw [volumeFilterFn_sell_eq]
  refine ⟨_, rfl, ?_⟩
  have h1 := baseCheckStep_amount_cases lp.sellBaseAssetCapInBaseUnits lp.mode
    otb.SellBaseAssetCapInBaseUnits tbb.SellBaseAssetCapInBaseUnits a
    ⟨b, q, .num a, .num p⟩
  rcases hb : baseCheckStep lp.sellBaseAssetCapInBaseUnits lp.mode
      otb.SellBaseAssetCapInBaseUnits tbb.SellBaseAssetCapInBaseUnits a
      ⟨b, q, .num a, .num p⟩ with ⟨a1, kb, op1⟩
  rw [hb] at h1
  have h2 := quoteCheckStep_amount_cases lp.sellBaseAssetCapInQuoteUnits lp.mode
    otb.SellBaseAssetCapInQuoteUnits tbb.SellBaseAssetCapInQuoteUnits p a1 op1
  rcases hq : quoteCheckStep lp.sellBaseAssetCapInQuoteUnits lp.mode
      otb.SellBaseAssetCapInQuoteUnits tbb.SellBaseAssetCapInQuoteUnits p a1 op1
      with ⟨a2, kq, op2⟩
  rw [hq] at h2
  simp only at h1 h2
  rw [sellCheckOutcome_cases otb tbb lp p a ⟨b, q, .num a, .num p⟩ a1 a2 kb kq op1 op2 hb hq]
  have hnn : 0 ≤ a → 0 ≤ a2 := by
    intro ha
    rcases h2 with h2 | h2
    · rcases h1 with h1 | h1
      · rw [h2, h1]; exact ha
      · rw [h2]; exact le_of_lt h1
    · exact le_of_lt h2
  cases kb <;> cases kq <;>
    refine ⟨?_, ?_, hnn⟩ <;>
    intro h <;>
    first
      | rfl
      | exact ⟨rfl, rfl⟩
      | exact Bool.noConfusion h

/-- C6 witness: the characterization applied at a concrete trimmed-and-kept
operation (OTB base 80, cap 100, amount 30, price 10, exact mode). -/
theorem tbb_modified_only_on_keep_witness :
    ∃ r, volumeFilterFn ⟨80, 800⟩ ⟨0, 0⟩
        ⟨assetXLM, assetUSD, .num 30, .num 10⟩ assetXLM assetUSD
        ⟨some 100, none, volumeFilterMode.exact⟩ = .ok r
      ∧ (r.keep = false → r.dailyTBB = ⟨0, 0⟩)
      ∧ (r.keep = true →
          r.dailyTBB.SellBaseAssetCapInBaseUnits = 0 + r.newAmountBeingSold
          ∧ r.dailyTBB.SellBaseAssetCapInQuoteUnits = 0 + r.newAmountBeingSold * 10)
      ∧ (0 ≤ (30 : ℚ) → 0 ≤ r.newAmountBeingSold) :=
  tbb_modified_only_on_keep ⟨80, 800⟩ ⟨0, 0⟩ assetXLM assetUSD
    ⟨some 100, none, volumeFilterMode.exact⟩ 30 10

/-- The extracted base-units check block of the code computes exactly the
spec's step (b): same keep flag, same running amount. -/
lemma baseCheckStep_eq_spec (cap : Option ℚ) (m : volumeFilterMode) (otbB tbbB a : ℚ)
    (op : ManageSellOffer) :
    (baseCheckStep cap m otbB tbbB a op).2.1 = (specBaseCheck cap m otbB tbbB a).1
    ∧ (baseCheckStep cap m otbB tbbB a op).1 = (specBaseCheck cap m otbB tbbB a).2 := by
  cases cap with
  | none => exact ⟨rfl, rfl⟩
  | some c =>
    simp only [baseCheckStep, specBaseCheck]
    by_cases hle : otbB + tbbB + a ≤ c
    · simp [hle]
    · by_cases hm : m = volumeFilterMode.exact
      · by_cases hpos : 0 < c - otbB - tbbB
        · simp [hle, hm, hpos]
        · simp [hle, hm, hpos]
      · simp [hle, hm]

/-- The extracted quote-units check block of the code computes exactly the
spec's step (c): same keep flag, same running amount, with the projection
recomputed from the amount it receives. -/
lemma quoteCheckStep_eq_spec (cap : Option ℚ) (m : volumeFilterMode)
    (otbQ tbbQ price a : ℚ) (op : ManageSellOffer) :
    (quoteCheckStep cap m otbQ tbbQ price a op).2.1
      = (specQuoteCheck cap m otbQ tbbQ price a).1
    ∧ (quoteCheckStep cap m otbQ tbbQ price a op).1
      = (specQuoteCheck cap m otbQ tbbQ price a).2 := by
  cases cap with
  | none => exact ⟨rfl, rfl⟩
  | some c =>
    simp only [quoteCheckStep, specQuoteCheck]
    by_cases hle : otbQ + tbbQ + a * price ≤ c
    · simp [hle]
    · by_cases hm : m = volumeFilterMode.exact
      · by_cases hpos : 0 < (c - otbQ - tbbQ) / price
        · simp [hle, hm, hpos]
        · simp [hle, hm, hpos]
      · simp [hle, hm]

/-- C5: with both caps configured, volumeFilterFn evaluates the base-units
check first and the quote-units check second, and the quote-units check is
computed from the amount the base-units check produced — the operation is
kept iff both spec-side checks pass, where the quote check's projection
uses projectedQuote = OTB.quote + TBB.quote + amount1 * price with
amount1 the (possibly trimmed) output of the base check, and the final
booked amount is the quote check's output. -/
theorem quote_check_uses_base_check_output (otb tbb : VolumeFilterConfig)
    (b q : Asset) (m : volumeFilterMode) (cb cq a p : ℚ) :
    ∃ r, volumeFilterFn otb tbb ⟨b, q, .num a, .num p⟩ b q ⟨some cb, some cq, m⟩ = .ok r
      ∧ r.keep
          = ((specBaseCheck (some cb) m otb.SellBaseAssetCapInBaseUnits
                tbb.SellBaseAssetCapInBaseUnits a).1
             && (specQuoteCheck (some cq) m otb.SellBaseAssetCapInQuoteUnits
                tbb.SellBaseAssetCapInQuoteUnits p
                (specBaseCheck (some cb) m otb.SellBaseAssetCapInBaseUnits
                  tbb.SellBaseAssetCapInBaseUnits a).2).1)
      ∧ r.newAmountBeingSold
          = (specQuoteCheck (some cq) m otb.SellBaseAssetCapInQuoteUnits
              tbb.SellBaseAssetCapInQuoteUnits p
              (specBaseCheck (some cb) m otb.SellBaseAssetCapInBaseUnits
                tbb.SellBaseAssetCapInBaseUnits a).2).2 := by
  rw [volumeFilterFn_sell_eq]
  have e1 := baseCheckStep_eq_spec (some cb) m otb.SellBaseAssetCapInBaseUnits
    tbb.SellBaseAssetCapInBaseUnits a ⟨b, q, .num a, .num p⟩
  rcases hb : baseCheckStep (some cb) m otb.SellBaseAssetCapInBaseUnits
      tbb.SellBaseAssetCapInBaseUnits a ⟨b, q, .num a, .num p⟩ with ⟨a1, kb, op1⟩
  rw [hb] at e1
  have e2 := quoteCheckStep_eq_spec (some cq) m otb.SellBaseAssetCapInQuoteUnits
    tbb.SellBaseAssetCapInQuoteUnits p a1 op1
  rcases hq : quoteCheckStep (some cq) m otb.SellBaseAssetCapInQuoteUnits
      tbb.SellBaseAssetCapInQuoteUnits p a1 op1 with ⟨a2, kq, op2⟩
  rw [hq] at e2
  simp only at e1 e2
  rw [sellCheckOutcome_cases otb tbb ⟨some cb, some cq, m⟩ p a ⟨b, q, .num a, .num p⟩
    a1 a2 kb kq op1 op2 hb hq]
  refine ⟨_, rfl, ?_, ?_⟩
  · rw [← e1.1, ← e1.2, ← e2.1]
    cases hkk : (kb && kq) <;> simp [hkk]
  · rw [← e1.2, ← e2.2]
    cases hkk : (kb && kq) <;> simp [hkk]

/-- C5 witness: the composition theorem applied at OTB (80, 600), caps
(100, 500), exact mode, amount 30, price 1: the base check trims to 20,
the quote check then evaluates 600 + 0 + 20 * 1 against 500 and fails
with no positive quote headroom, so the operation is dropped. -/
theorem quote_check_uses_base_check_output_witness :
    ∃ r, volumeFilterFn ⟨80, 600⟩ ⟨0, 0⟩
        ⟨assetXLM, assetUSD, .num 30, .num 1⟩ assetXLM assetUSD
        ⟨some 100, some 500, volumeFilterMode.exact⟩ = .ok r
      ∧ r.keep
          = ((specBaseCheck (some 100) volumeFilterMode.exact 80 0 30).1
             && (specQuoteCheck (some 500) volumeFilterMode.exact 600 0 1
                (specBaseCheck (some 100) volumeFilterMode.exact 80 0 30).2).1)
      ∧ r.newAmountBeingSold
          = (specQuoteCheck (some 500) volumeFilterMode.exact 600 0 1
              (specBaseCheck (some 100) volumeFilterMode.exact 80 0 30).2).2 :=
  quote_check_uses_base_check_output ⟨80, 600⟩ ⟨0, 0⟩ assetXLM assetUSD
    volumeFilterMode.exact 100 500 30 1

/-- The base-units check block never changes the asset pair of the
operation object, only its Amount. -/
lemma baseCheckStep_op_assets (cap : Option ℚ) (m : volumeFilterMode)
    (otbB tbbB a : ℚ) (op : ManageSellOffer) :
    ((baseCheckStep cap m otbB tbbB a op).2.2).Selling = op.Selling
    ∧ ((baseCheckStep cap m otbB tbbB a op).2.2).Buying = op.Buying := by
  cases cap with
  | none => exact ⟨rfl, rfl⟩
  | some c =>
    simp only [baseCheckStep]
    split_ifs <;> exact ⟨rfl, rfl⟩

/-- The quote-units check block never changes the asset pair of the
operation object, only its Amount. -/
lemma quoteCheckStep_op_assets (cap : Option ℚ) (m : volumeFilterMode)
    (otbQ tbbQ price a : ℚ) (op : ManageSellOffer) :
    ((quoteCheckStep cap m otbQ tbbQ price a op).2.2).Selling = op.Selling
    ∧ ((quoteCheckStep cap m otbQ tbbQ price a op).2.2).Buying = op.Buying := by
  cases cap with
  | none => exact ⟨rfl, rfl⟩
  | some c =>
    simp only [quoteCheckStep]
    split_ifs <;> exact ⟨rfl, rfl⟩

/-- The sell branch never changes the asset pair of the operation
object. -/
lemma sellCheckOutcome_op_assets (otb tbb : VolumeFilterConfig) (lp : limitParameters)
    (p a : ℚ) (op : ManageSellOffer) :
    ((sellCheckOutcome otb tbb lp p a op).op).Selling = op.Selling
    ∧ ((sellCheckOutcome otb tbb lp p a op).op).Buying = op.Buying := by
  have h1 := baseCheckStep_op_assets lp.sellBaseAssetCapInBaseUnits lp.mode
    otb.SellBaseAssetCapInBaseUnits tbb.SellBaseAssetCapInBaseUnits a op
  rcases hb : baseCheckStep lp.sellBaseAssetCapInBaseUnits lp.mode
      otb.SellBaseAssetCapInBaseUnits tbb.SellBaseAssetCapInBaseUnits a op
      with ⟨a1, kb, op1⟩
  rw [hb] at h1
  have h2 := quoteCheckStep_op_assets lp.sellBaseAssetCapInQuoteUnits lp.mode
    otb.SellBaseAssetCapInQuoteUnits tbb.SellBaseAssetCapInQuoteUnits p a1 op1
  rcases hq : quoteCheckStep lp.sellBaseAssetCapInQuoteUnits lp.mode
      otb.SellBaseAssetCapInQuoteUnits tbb.SellBaseAssetCapInQuoteUnits p a1 op1
      with ⟨a2, kq, op2⟩
  rw [hq] at h2
  simp only at h1 h2
  rw [sellCheckOutcome_cases otb tbb lp p a op a1 a2 kb kq op1 op2 hb hq]
  cases hkk : (kb && kq) <;>
    simp only [if_true, if_false, ite_true, ite_false, Bool.false_eq_true] <;>
    exact ⟨h2.1.trans h1.1, h2.2.trans h1.2⟩

/-- A sell-classified operation whose price or amount string does not
parse makes volumeFilterFn fail. -/
lemma volumeFilterFn_invalid_parse_error (otb tbb : VolumeFilterConfig)
    (b q : Asset) (am pr : NumStr) (lp : limitParameters)
    (hbad : (∃ s, pr = .invalid s) ∨ ∃ s, am = .invalid s) :
    ∃ e, volumeFilterFn otb tbb ⟨b, q, am, pr⟩ b q lp = .error e := by
  unfold volumeFilterFn IsSelling
  rw [if_pos ⟨rfl, rfl⟩]
  rcases hbad with ⟨s, hs⟩ | ⟨s, hs⟩
  · subst hs
    exact ⟨_, rfl⟩
  · subst hs
    cases pr with
    | num p => exact ⟨_, rfl⟩
    | invalid s2 => exact ⟨_, rfl⟩

/-- The per-operation closure keeps the asset pair of any sell-classified
operation it emits: only the Amount field can be rewritten. -/
lemma innerFn_preserves_assets (dailyOTB : VolumeFilterConfig) (b q : Asset)
    (config : limitParameters) (acc : VolumeFilterConfig) (am pr : NumStr)
    (acc2 : VolumeFilterConfig) (newOp : ManageSellOffer)
    (h : innerFn dailyOTB b q config acc ⟨b, q, am, pr⟩ = .ok (acc2, some newOp)) :
    newOp.Selling = b ∧ newOp.Buying = q := by
  cases am with
  | invalid s =>
    rcases volumeFilterFn_invalid_parse_error dailyOTB acc b q (.invalid s) pr config
      (Or.inr ⟨s, rfl⟩) with ⟨e, he⟩
    unfold innerFn at h
    rw [he] at h
    cases h
  | num a =>
    cases pr with
    | invalid s =>
      rcases volumeFilterFn_invalid_parse_error dailyOTB acc b q (.num a) (.invalid s) config
        (Or.inl ⟨s, rfl⟩) with ⟨e, he⟩
      unfold innerFn at h
      rw [he] at h
      cases h
    | num p =>
      unfold innerFn at h
      rw [volumeFilterFn_sell_eq] at h
      simp only at h
      have hassets := sellCheckOutcome_op_assets dailyOTB acc config p a ⟨b, q, .num a, .num p⟩
      cases hk : (sellCheckOutcome dailyOTB acc config p a ⟨b, q, .num a, .num p⟩).keep with
      | false => rw [hk] at h; simp at h
      | true =>
        rw [hk] at h
        simp only [if_true, ite_true] at h
        have hnew : newOp = (sellCheckOutcome dailyOTB acc config p a ⟨b, q, .num a, .num p⟩).op := by
          injection h with h
          injection h with h1 h2
          injection h2 with h2
          exact h2.symm
        rw [hnew]
        exact hassets

/-- Over the spec-modelled fold, operations classified as not selling the
base asset come out exactly as they went in and in their original order:
restricting the output to buy-side operations gives back precisely the
buy-side operations of the input. -/
lemma filterOps_buy_passthrough (b q : Asset)
    (fn : VolumeFilterConfig → ManageSellOffer →
      Except String (VolumeFilterConfig × Option ManageSellOffer))
    (hfn : ∀ acc op acc2 newOp, op.Selling = b → op.Buying = q →
      fn acc op = .ok (acc2, some newOp) →
      newOp.Selling = b ∧ newOp.Buying = q) :
    ∀ ops acc accF out, filterOps b q fn acc ops = .ok (accF, out) →
      out.filter (isBuySideOp b q) = ops.filter (isBuySideOp b q) := by
  intro ops
  induction ops with
  | nil =>
    intro acc accF out h
    simp only [filterOps] at h
    injection h with h
    injection h with h1 h2
    subst h2
    rfl
  | cons op rest ih =>
    intro acc accF out h
    simp only [filterOps] at h
    by_cases hcls : op.Selling = b ∧ op.Buying = q
    · rw [if_pos hcls] at h
      cases hfc : fn acc op with
      | error e => rw [hfc] at h; cases h
      | ok pr =>
        rcases pr with ⟨acc3, onew⟩
        rw [hfc] at h
        cases onew with
        | none =>
          simp only at h
          have hrec := ih acc3 accF out h
          rw [hrec]
          have hbo : isBuySideOp b q op = false := by
            simp [isBuySideOp, hcls.1, hcls.2]
          simp [List.filter_cons, hbo]
        | some newOp =>
          simp only at h
          cases hrec : filterOps b q fn acc3 rest with
          | error e => rw [hrec] at h; cases h
          | ok pr2 =>
            rcases pr2 with ⟨accF2, restF⟩
            rw [hrec] at h
            injection h with h
            injection h with h1 h2
            subst h2
            have hnew := hfn acc op acc3 newOp hcls.1 hcls.2 hfc
            have hbn : isBuySideOp b q newOp = false := by
              simp [isBuySideOp, hnew.1, hnew.2]
            have hbo : isBuySideOp b q op = false := by
              simp [isBuySideOp, hcls.1, hcls.2]
            have hrest := ih acc3 accF2 restF hrec
            simp [List.filter_cons, hbn, hbo, hrest]
    · rw [if_neg hcls] at h
      cases hrec : filterOps b q fn acc rest with
      | error e => rw [hrec] at h; cases h
      | ok pr2 =>
        rcases pr2 with ⟨accF2, restF⟩
        rw [hrec] at h
        injection h with h
        injection h with h1 h2
        subst h2
        have hbo : isBuySideOp b q op = true := by
          simp [isBuySideOp, hcls]
        have hrest := ih acc accF2 restF hrec
        simp [List.filter_cons, hbo, hrest]

/-- C4: every buy-side operation in the batch — one classified as not
selling the base asset against the configured pair — passes through the
volume filter unmodified and in its original position, regardless of the
cap configuration and mode: restricting the output batch to buy-side
operations yields exactly the buy-side operations of the input batch. -/
theorem buy_side_ops_pass_through (query : Nat → QueryRowOutcome)
    (config : limitParameters) (b q : Asset) (ops out : List ManageSellOffer)
    (h : volumeFilter.Apply query config b q ops = .ok out) :
    out.filter (isBuySideOp b q) = ops.filter (isBuySideOp b q) := by
  unfold volumeFilter.Apply at h
  cases hq : query 0 with
  | err m => rw [hq] at h; cases h
  | wrongShape t => rw [hq] at h; cases h
  | dailyVolume dv =>
    rw [hq] at h
    simp only at h
    cases hf : filterOps b q
        (fun acc op => innerFn ⟨dv.BaseVol, dv.QuoteVol⟩ b q config acc op)
        ⟨0, 0⟩ ops with
    | error e => rw [hf] at h; cases h
    | ok pr =>
      rcases pr with ⟨accF, out2⟩
      rw [hf] at h
      simp only at h
      injection h with h2
      subst h2
      refine filterOps_buy_passthrough b q _ ?_ ops ⟨0, 0⟩ accF out2 hf
      intro acc op acc2 newOp hs hb2 hfc
      rcases op with ⟨os, ob, am, pr2⟩
      simp only at hs hb2
      rw [hs, hb2] at hfc
      exact innerFn_preserves_assets ⟨dv.BaseVol, dv.QuoteVol⟩ b q config acc
        am pr2 acc2 newOp hfc

/-- C4 witness: a batch holding one buy-side operation (selling the quote
asset) put through Apply with a configured base cap comes out with that
operation untouched. -/
theorem buy_side_ops_pass_through_witness :
    volumeFilter.Apply (fun _ => .dailyVolume ⟨0, 0⟩)
        ⟨some 100, none, volumeFilterMode.exact⟩ assetXLM assetUSD
        [⟨assetUSD, assetXLM, NumStr.num 5, NumStr.num 2⟩]
      = .ok [⟨assetUSD, assetXLM, NumStr.num 5, NumStr.num 2⟩]
    ∧ ([⟨assetUSD, assetXLM, NumStr.num 5, NumStr.num 2⟩] :
        List ManageSellOffer).filter (isBuySideOp assetXLM assetUSD)
      = ([⟨assetUSD, assetXLM, NumStr.num 5, NumStr.num 2⟩] :
        List ManageSellOffer).filter (isBuySideOp assetXLM assetUSD) :=
  ⟨by simp [volumeFilter.Apply, filterOps, assetXLM, assetUSD],
   buy_side_ops_pass_through (fun _ => .dailyVolume ⟨0, 0⟩)
    ⟨some 100, none, volumeFilterMode.exact⟩ assetXLM assetUSD
    [⟨assetUSD, assetXLM, NumStr.num 5, NumStr.num 2⟩]
    [⟨assetUSD, assetXLM, NumStr.num 5, NumStr.num 2⟩]
    (by simp [volumeFilter.Apply, filterOps, assetXLM, assetUSD])⟩

/-- If any sell-classified operation of the batch has an unparseable price
or amount, the fold over innerFn fails. -/
lemma filterOps_innerFn_abort (dailyOTB : VolumeFilterConfig) (b qa : Asset)
    (config : limitParameters) :
    ∀ ops acc, (∃ op ∈ ops, op.Selling = b ∧ op.Buying = qa
        ∧ ((∃ s, op.Price = .invalid s) ∨ ∃ s, op.Amount = .invalid s)) →
      ∃ e, filterOps b qa (fun acc2 op => innerFn dailyOTB b qa config acc2 op) acc ops
        = .error e := by
  intro ops
  induction ops with
  | nil =>
    rintro acc ⟨op, hm, _⟩
    cases hm
  | cons op rest ih =>
    rintro acc ⟨op2, hm, hcls⟩
    rcases List.mem_cons.1 hm with heq | hm2
    · subst heq
      obtain ⟨hs, hb2, hbad⟩ := hcls
      simp only [filterOps]
      rw [if_pos ⟨hs, hb2⟩]
      rcases op2 with ⟨os, ob, am, pr⟩
      simp only at hs hb2 hbad
      rw [hs, hb2]
      rcases volumeFilterFn_invalid_parse_error dailyOTB acc b qa am pr config hbad
        with ⟨e, he⟩
      simp only [innerFn, he]
      exact ⟨e, rfl⟩
    · simp only [filterOps]
      by_cases hcls2 : op.Selling = b ∧ op.Buying = qa
      · rw [if_pos hcls2]
        cases hfc : innerFn dailyOTB b qa config acc op with
        | error e => exact ⟨e, rfl⟩
        | ok pr2 =>
          rcases pr2 with ⟨acc3, onew⟩
          rcases ih acc3 ⟨op2, hm2, hcls⟩ with ⟨e, he⟩
          cases onew with
          | none => exact ⟨e, by simp [he]⟩
          | some newOp => exact ⟨e, by simp [he]⟩
      · rw [if_neg hcls2]
        rcases ih acc ⟨op2, hm2, hcls⟩ with ⟨e, he⟩
        exact ⟨e, by simp [he]⟩

/-- C8: Apply consults the historical-volume query exactly once per
invocation — its outcome depends only on the result of query invocation 0
whatever the batch size — and a query failure, a result of the wrong
dynamic shape, or an unparseable price or amount on a sell-side operation
aborts the entire call with an error; the error constructor carries no
operations, so no partial batch is returned. -/
theorem apply_queries_once_and_aborts_on_failure :
    (∀ q1 q2 : Nat → QueryRowOutcome, ∀ config b qa ops, q1 0 = q2 0 →
      volumeFilter.Apply q1 config b qa ops = volumeFilter.Apply q2 config b qa ops)
    ∧ (∀ (q : Nat → QueryRowOutcome) (config : limitParameters) (b qa : Asset)
        (ops : List ManageSellOffer) (m : String), q 0 = .err m →
      ∃ s, volumeFilter.Apply q config b qa ops = .error s)
    ∧ (∀ (q : Nat → QueryRowOutcome) (config : limitParameters) (b qa : Asset)
        (ops : List ManageSellOffer) (t : String), q 0 = .wrongShape t →
      ∃ s, volumeFilter.Apply q config b qa ops = .error s)
    ∧ (∀ (q : Nat → QueryRowOutcome) (config : limitParameters) (b qa : Asset)
        (ops : List ManageSellOffer),
      (∃ op ∈ ops, op.Selling = b ∧ op.Buying = qa
        ∧ ((∃ s, op.Price = .invalid s) ∨ ∃ s, op.Amount = .invalid s)) →
      ∃ s, volumeFilter.Apply q config b qa ops = .error s) := by
  refine ⟨?_, ?_, ?_, ?_⟩
  · intro q1 q2 config b qa ops h
    unfold volumeFilter.Apply
    rw [h]
  · intro q config b qa ops m hq
    unfold volumeFilter.Apply
    rw [hq]
    exact ⟨_, rfl⟩
  · intro q config b qa ops t hq
    unfold volumeFilter.Apply
    rw [hq]
    exact ⟨_, rfl⟩
  · intro q config b qa ops hbadop
    unfold volumeFilter.Apply
    cases hq : q 0 with
    | err m => exact ⟨_, rfl⟩
    | wrongShape t => exact ⟨_, rfl⟩
    | dailyVolume dv =>
      rcases filterOps_innerFn_abort ⟨dv.BaseVol, dv.QuoteVol⟩ b qa config ops
        ⟨0, 0⟩ hbadop with ⟨e, he⟩
      simp only [he]
      exact ⟨_, rfl⟩

/-- C8 witness: a failing query aborts Apply on the empty batch. -/
theorem apply_queries_once_and_aborts_on_failure_witness :
    ∃ s, volumeFilter.Apply (fun _ => QueryRowOutcome.err "db down")
      ⟨some 100, none, volumeFilterMode.exact⟩ assetXLM assetUSD [] = .error s :=
  apply_queries_once_and_aborts_on_failure.2.1 (fun _ => QueryRowOutcome.err "db down")
    ⟨some 100, none, volumeFilterMode.exact⟩ assetXLM assetUSD [] "db down" rfl

/-- When the spec-side base check passes, the projection computed with the
amount it produced is within the cap: an untrimmed pass means the
original projection was admissible, and a trim lands exactly on the
cap. -/
lemma specBaseCheck_pass_bound (m : volumeFilterMode) (otbB tbbB a c : ℚ) :
    (specBaseCheck (some c) m otbB tbbB a).1 = true →
    otbB + tbbB + (specBaseCheck (some c) m otbB tbbB a).2 ≤ c := by
  simp only [specBaseCheck]
  split_ifs with h1 h2 h3
  · intro _
    show otbB + tbbB + a ≤ c
    exact h1
  · intro _
    show otbB + tbbB + (c - otbB - tbbB) ≤ c
    linarith
  · intro hk
    cases hk
  · intro hk
    cases hk

/-- When the spec-side quote check passes with a positive price, the
amount it produces is no larger than the amount it received. -/
lemma specQuoteCheck_pass_le (m : volumeFilterMode) (otbQ tbbQ c p a : ℚ)
    (hp : 0 < p) :
    (specQuoteCheck (some c) m otbQ tbbQ p a).1 = true →
    (specQuoteCheck (some c) m otbQ tbbQ p a).2 ≤ a := by
  simp only [specQuoteCheck]
  split_ifs with h1 h2 h3
  · intro _
    show a ≤ a
    exact le_refl a
  · intro _
    show (c - otbQ - tbbQ) / p ≤ a
    rw [div_le_iff hp]
    push_neg at h1
    linarith
  · intro hk
    cases hk
  · intro hk
    cases hk

/-- A dropped operation leaves the accumulator untouched; a kept operation
adds its final amount to the base tally. -/
lemma sellCheckOutcome_tbb_shape (otb tbb : VolumeFilterConfig) (lp : limitParameters)
    (p a : ℚ) (op : ManageSellOffer) :
    ((sellCheckOutcome otb tbb lp p a op).keep = false →
      (sellCheckOutcome otb tbb lp p a op).dailyTBB = tbb)
    ∧ ((sellCheckOutcome otb tbb lp p a op).keep = true →
      (sellCheckOutcome otb tbb lp p a op).dailyTBB.SellBaseAssetCapInBaseUnits
        = tbb.SellBaseAssetCapInBaseUnits
          + (sellCheckOutcome otb tbb lp p a op).newAmountBeingSold) := by
  rcases hb : baseCheckStep lp.sellBaseAssetCapInBaseUnits lp.mode
      otb.SellBaseAssetCapInBaseUnits tbb.SellBaseAssetCapInBaseUnits a op
      with ⟨a1, kb, op1⟩
  rcases hq : quoteCheckStep lp.sellBaseAssetCapInQuoteUnits lp.mode
      otb.SellBaseAssetCapInQuoteUnits tbb.SellBaseAssetCapInQuoteUnits p a1 op1
      with ⟨a2, kq, op2⟩
  rw [sellCheckOutcome_cases otb tbb lp p a op a1 a2 kb kq op1 op2 hb hq]
  cases hkk : (kb && kq) <;> simp

/-- With a configured base cap, a positive price and an accumulator that
still respects the cap, a kept operation keeps the base tally within the
cap: an untrimmed keep was admissible, a base trim lands on the cap, and
a quote trim only shrinks the amount further. -/
lemma sellCheckOutcome_base_cap_bound (otb tbb : VolumeFilterConfig) (cq : Option ℚ)
    (m : volumeFilterMode) (c a p : ℚ) (op : ManageSellOffer) (hp : 0 < p) :
    (sellCheckOutcome otb tbb ⟨some c, cq, m⟩ p a op).keep = true →
    otb.SellBaseAssetCapInBaseUnits
      + (sellCheckOutcome otb tbb
          ⟨some c, cq, m⟩ p a op).dailyTBB.SellBaseAssetCapInBaseUnits ≤ c := by
  have e1 := baseCheckStep_eq_spec (some c) m otb.SellBaseAssetCapInBaseUnits
    tbb.SellBaseAssetCapInBaseUnits a op
  rcases hb : baseCheckStep (some c) m otb.SellBaseAssetCapInBaseUnits
      tbb.SellBaseAssetCapInBaseUnits a op with ⟨a1, kb, op1⟩
  rw [hb] at e1
  simp only at e1
  rcases hq : quoteCheckStep cq m otb.SellBaseAssetCapInQuoteUnits
      tbb.SellBaseAssetCapInQuoteUnits p a1 op1 with ⟨a2, kq, op2⟩
  rw [sellCheckOutcome_cases otb tbb ⟨some c, cq, m⟩ p a op a1 a2 kb kq op1 op2 hb hq]
  cases hkk : (kb && kq) with
  | false => simp
  | true =>
    intro _
    have hpair : kb = true ∧ kq = true := by
      rw [Bool.and_eq_true] at hkk
      exact hkk
    have hkb : kb = true := hpair.1
    have hkq : kq = true := hpair.2
    have hS1 : (specBaseCheck (some c) m otb.SellBaseAssetCapInBaseUnits
        tbb.SellBaseAssetCapInBaseUnits a).1 = true := by
      rw [← e1.1]
      exact hkb
    have hb1 : otb.SellBaseAssetCapInBaseUnits + tbb.SellBaseAssetCapInBaseUnits + a1 ≤ c := by
      have hbd := specBaseCheck_pass_bound m otb.SellBaseAssetCapInBaseUnits
        tbb.SellBaseAssetCapInBaseUnits a c hS1
      rw [← e1.2] at hbd
      exact hbd
    have ha2 : a2 ≤ a1 := by
      cases cq with
      | none =>
        simp only [quoteCheckStep, Prod.mk.injEq] at hq
        rw [← hq.1]
      | some c2 =>
        have e2 := quoteCheckStep_eq_spec (some c2) m otb.SellBaseAssetCapInQuoteUnits
          tbb.SellBaseAssetCapInQuoteUnits p a1 op1
        rw [hq] at e2
        simp only at e2
        have hQ1 : (specQuoteCheck (some c2) m otb.SellBaseAssetCapInQuoteUnits
            tbb.SellBaseAssetCapInQuoteUnits p a1).1 = true := by
          rw [← e2.1]
          exact hkq
        have hle := specQuoteCheck_pass_le m otb.SellBaseAssetCapInQuoteUnits
          tbb.SellBaseAssetCapInQuoteUnits c2 p a1 hp hQ1
        rw [← e2.2] at hle
        exact hle
    show otb.SellBaseAssetCapInBaseUnits + (tbb.SellBaseAssetCapInBaseUnits + a2) ≤ c
    linarith

/-- The base check either leaves the operation and amount untouched or
writes the 7-digit formatting of its output amount into the operation. -/
lemma baseCheckStep_amount_op (cap : Option ℚ) (m : volumeFilterMode)
    (otbB tbbB a : ℚ) (op : ManageSellOffer) :
    ((baseCheckStep cap m otbB tbbB a op).1 = a
      ∧ (baseCheckStep cap m otbB tbbB a op).2.2 = op)
    ∨ (baseCheckStep cap m otbB tbbB a op).2.2
        = { op with Amount := sprintf7 ((baseCheckStep cap m otbB tbbB a op).1) } := by
  cases cap with
  | none => exact Or.inl ⟨rfl, rfl⟩
  | some c =>
    simp only [baseCheckStep]
    split_ifs with h1 h2
    · exact Or.inr rfl
    · exact Or.inl ⟨rfl, rfl⟩
    · exact Or.inl ⟨rfl, rfl⟩

/-- The quote check either leaves the operation and amount untouched or
writes the 7-digit formatting of its output amount into the operation. -/
lemma quoteCheckStep_amount_op (cap : Option ℚ) (m : volumeFilterMode)
    (otbQ tbbQ price a : ℚ) (op : ManageSellOffer) :
    ((quoteCheckStep cap m otbQ tbbQ price a op).1 = a
      ∧ (quoteCheckStep cap m otbQ tbbQ price a op).2.2 = op)
    ∨ (quoteCheckStep cap m otbQ tbbQ price a op).2.2
        = { op with Amount := sprintf7 ((quoteCheckStep cap m otbQ tbbQ price a op).1) } := by
  cases cap with
  | none => exact Or.inl ⟨rfl, rfl⟩
  | some c =>
    simp only [quoteCheckStep]
    split_ifs with h1 h2
    · exact Or.inr rfl
    · exact Or.inl ⟨rfl, rfl⟩
    · exact Or.inl ⟨rfl, rfl⟩

/-- The amount string of a kept operation parses to a value within half of
the seventh fractional digit of the amount booked into the accumulator:
they agree exactly for untrimmed keeps and differ only by the 7-digit
formatting for trimmed ones. -/
lemma sellCheckOutcome_kept_amount_close (otb tbb : VolumeFilterConfig)
    (lp : limitParameters) (a p : ℚ) (b q : Asset) :
    (sellCheckOutcome otb tbb lp p a ⟨b, q, .num a, .num p⟩).keep = true →
    ∃ v, (sellCheckOutcome otb tbb lp p a ⟨b, q, .num a, .num p⟩).op.Amount = .num v
      ∧ |(sellCheckOutcome otb tbb lp p a ⟨b, q, .num a, .num p⟩).newAmountBeingSold - v|
          ≤ 1 / 20000000 := by
  have hb_op := baseCheckStep_amount_op lp.sellBaseAssetCapInBaseUnits lp.mode
    otb.SellBaseAssetCapInBaseUnits tbb.SellBaseAssetCapInBaseUnits a
    ⟨b, q, .num a, .num p⟩
  rcases hb : baseCheckStep lp.sellBaseAssetCapInBaseUnits lp.mode
      otb.SellBaseAssetCapInBaseUnits tbb.SellBaseAssetCapInBaseUnits a
      ⟨b, q, .num a, .num p⟩ with ⟨a1, kb, op1⟩
  rw [hb] at hb_op
  simp only at hb_op
  have hq_op := quoteCheckStep_amount_op lp.sellBaseAssetCapInQuoteUnits lp.mode
    otb.SellBaseAssetCapInQuoteUnits tbb.SellBaseAssetCapInQuoteUnits p a1 op1
  rcases hq : quoteCheckStep lp.sellBaseAssetCapInQuoteUnits lp.mode
      otb.SellBaseAssetCapInQuoteUnits tbb.SellBaseAssetCapInQuoteUnits p a1 op1
      with ⟨a2, kq, op2⟩
  rw [hq] at hq_op
  simp only at hq_op
  rw [sellCheckOutcome_cases otb tbb lp p a ⟨b, q, .num a, .num p⟩
    a1 a2 kb kq op1 op2 hb hq]
  cases hkk : (kb && kq) with
  | false => simp
  | true =>
    intro _
    rcases hq_op with ⟨hqa, hqop⟩ | hqop
    · rcases hb_op with ⟨hba, hbop⟩ | hbop
      · refine ⟨a, ?_, ?_⟩
        · show op2.Amount = NumStr.num a
          rw [hqop, hbop]
        · show |a2 - a| ≤ 1 / 20000000
          rw [hqa, hba]
          simp
      · refine ⟨round7 a1, ?_, ?_⟩
        · show op2.Amount = NumStr.num (round7 a1)
          rw [hqop, hbop]
          rfl
        · show |a2 - round7 a1| ≤ 1 / 20000000
          rw [hqa]
          exact abs_sub_round7 a1
    · refine ⟨round7 a2, ?_, ?_⟩
      · show op2.Amount = NumStr.num (round7 a2)
        rw [hqop]
        rfl
      · show |a2 - round7 a2| ≤ 1 / 20000000
        exact abs_sub_round7 a2

/-- C3 amended: over one filter pass with a configured base-units cap,
positive prices and parseable amounts, starting from any accumulator that
still respects the cap (in particular the zero accumulator when the
on-the-books volume is within the cap), the final accumulator still
respects the cap — OTB.base + TBB.base ≤ cap at every point, each
intermediate state being the final state of a shorter pass — and the
final TBB.base tally differs from the sum of the emitted operations'
amount strings by at most the 7-digit formatting rounding, half of the
last digit per admitted operation. -/
theorem tbb_cap_invariant_and_sum (otb : VolumeFilterConfig) (b q : Asset)
    (cq : Option ℚ) (m : volumeFilterMode) (c : ℚ) (ops : List ManageSellOffer)
    (hops : ∀ op ∈ ops, goodSellOp b q op) :
    ∀ tbb accF out,
      otb.SellBaseAssetCapInBaseUnits + tbb.SellBaseAssetCapInBaseUnits ≤ c →
      filterOps b q (fun acc op => innerFn otb b q ⟨some c, cq, m⟩ acc op) tbb ops
        = .ok (accF, out) →
      otb.SellBaseAssetCapInBaseUnits + accF.SellBaseAssetCapInBaseUnits ≤ c
      ∧ |accF.SellBaseAssetCapInBaseUnits - tbb.SellBaseAssetCapInBaseUnits
          - soldBaseAmounts out| ≤ out.length * (1 / 20000000) := by
  induction ops with
  | nil =>
    intro tbb accF out hinv h
    simp only [filterOps] at h
    injection h with h
    injection h with h1 h2
    subst h1
    subst h2
    refine ⟨hinv, ?_⟩
    simp [soldBaseAmounts]
  | cons op rest ih =>
    intro tbb accF out hinv h
    have hgood := hops op (List.mem_cons_self op rest)
    obtain ⟨hs, hb2, ⟨p, hpr, hp⟩, ⟨a, ham⟩⟩ := hgood
    have hops2 : ∀ op2 ∈ rest, goodSellOp b q op2 :=
      fun op2 hm => hops op2 (List.mem_cons_of_mem op hm)
    rcases op with ⟨os, ob, am, pr⟩
    simp only at hs hb2 hpr ham
    rw [hs, hb2, hpr, ham] at h
    simp only [filterOps] at h
    rw [if_pos (⟨trivial, trivial⟩ : True ∧ True)] at h
    have hinner : innerFn otb b q ⟨some c, cq, m⟩ tbb ⟨b, q, .num a, .num p⟩
        = .ok ((sellCheckOutcome otb tbb ⟨some c, cq, m⟩ p a
                  ⟨b, q, .num a, .num p⟩).dailyTBB,
               if (sellCheckOutcome otb tbb ⟨some c, cq, m⟩ p a
                  ⟨b, q, .num a, .num p⟩).keep
               then some (sellCheckOutcome otb tbb ⟨some c, cq, m⟩ p a
                  ⟨b, q, .num a, .num p⟩).op
               else none) := by
      unfold innerFn
      rw [volumeFilterFn_sell_eq]
    rw [hinner] at h
    have hshape := sellCheckOutcome_tbb_shape otb tbb ⟨some c, cq, m⟩ p a
      ⟨b, q, .num a, .num p⟩
    cases hk : (sellCheckOutcome otb tbb ⟨some c, cq, m⟩ p a
        ⟨b, q, .num a, .num p⟩).keep with
    | false =>
      rw [hk] at h
      simp only [ite_false, if_false, Bool.false_eq_true] at h
      have htbb : (sellCheckOutcome otb tbb ⟨some c, cq, m⟩ p a
          ⟨b, q, .num a, .num p⟩).dailyTBB = tbb := hshape.1 hk
      rw [htbb] at h
      exact ih hops2 tbb accF out hinv h
    | true =>
      rw [hk] at h
      simp only [ite_true, if_true] at h
      have hcap := sellCheckOutcome_base_cap_bound otb tbb cq m c a p
        ⟨b, q, .num a, .num p⟩ hp hk
      have hdelta := hshape.2 hk
      rcases sellCheckOutcome_kept_amount_close otb tbb ⟨some c, cq, m⟩ a p b q hk
        with ⟨v, hv, hclose⟩
      cases hrec : filterOps b q (fun acc op => innerFn otb b q ⟨some c, cq, m⟩ acc op)
          (sellCheckOutcome otb tbb ⟨some c, cq, m⟩ p a
            ⟨b, q, .num a, .num p⟩).dailyTBB rest with
      | error e =>
        rw [hrec] at h
        cases h
      | ok pr2 =>
        rcases pr2 with ⟨accF2, restF⟩
        rw [hrec] at h
        injection h with h
        injection h with h1 h2
        subst h1
        subst h2
        have hih := ih hops2 _ accF2 restF (by
          calc otb.SellBaseAssetCapInBaseUnits
              + (sellCheckOutcome otb tbb ⟨some c, cq, m⟩ p a
                  ⟨b, q, .num a, .num p⟩).dailyTBB.SellBaseAssetCapInBaseUnits ≤ c :=
            hcap) hrec
        refine ⟨hih.1, ?_⟩
        set r := sellCheckOutcome otb tbb ⟨some c, cq, m⟩ p a ⟨b, q, .num a, .num p⟩
          with hr
        have hsum : soldBaseAmounts (r.op :: restF) = v + soldBaseAmounts restF := by
          simp [soldBaseAmounts, hv, numVal]
        rw [hsum]
        have hrw : accF2.SellBaseAssetCapInBaseUnits - tbb.SellBaseAssetCapInBaseUnits
            - (v + soldBaseAmounts restF)
            = (accF2.SellBaseAssetCapInBaseUnits
                - r.dailyTBB.SellBaseAssetCapInBaseUnits - soldBaseAmounts restF)
              + (r.newAmountBeingSold - v) := by
          rw [hdelta]
          ring
        rw [hrw]
        calc |(accF2.SellBaseAssetCapInBaseUnits
                - r.dailyTBB.SellBaseAssetCapInBaseUnits - soldBaseAmounts restF)
              + (r.newAmountBeingSold - v)|
            ≤ |accF2.SellBaseAssetCapInBaseUnits
                - r.dailyTBB.SellBaseAssetCapInBaseUnits - soldBaseAmounts restF|
              + |r.newAmountBeingSold - v| := abs_add _ _
          _ ≤ restF.length * (1 / 20000000) + 1 / 20000000 := by
              exact add_le_add hih.2 hclose
          _ = (restF.length + 1) * (1 / 20000000) := by ring
          _ = (r.op :: restF).length * (1 / 20000000) := by
              simp [List.length_cons]

/-- C3 counterexample: two concrete filter passes refute the claimed
invariant as stated.  First, when the on-the-books volume (110) already
exceeds the configured cap (100), the pass drops its operation and
leaves TBB at zero, yet OTB.base + TBB.base = 110 + 0 exceeds the cap.
Second, with the starting volumes within the base cap (0 + 0 of 7) but a
sell operation whose price string parses to -1, the quote-units trim
solves (10 - 20 - 0) / (-1) = 10 and inflates the amount: the operation
is kept at amount 10 and OTB.base + TBB.base = 0 + 10 exceeds the base
cap 7.  These are exactly the two failure modes that force the amended
claim's hypotheses: starting volume within the cap, and positive parsed
prices. -/
theorem base_cap_invariant_failure_modes :
    (filterOps assetXLM assetUSD
        (fun acc op => innerFn ⟨110, 0⟩ assetXLM assetUSD
          ⟨some 100, none, volumeFilterMode.exact⟩ acc op)
        ⟨0, 0⟩ [⟨assetXLM, assetUSD, .num 10, .num 1⟩]
      = .ok (⟨0, 0⟩, [])
    ∧ (100 : ℚ) < 110 + (0 : ℚ))
    ∧ (filterOps assetXLM assetUSD
        (fun acc op => innerFn ⟨0, 20⟩ assetXLM assetUSD
          ⟨some 7, some 10, volumeFilterMode.exact⟩ acc op)
        ⟨0, 0⟩ [⟨assetXLM, assetUSD, .num 5, .num (-1)⟩]
      = .ok (⟨10, -10⟩, [⟨assetXLM, assetUSD, .num 10, .num (-1)⟩])
    ∧ (0 : ℚ) + 0 ≤ 7
    ∧ (7 : ℚ) < 0 + 10) := by
  refine ⟨⟨?_, by norm_num⟩, ?_, by norm_num, by norm_num⟩
  · norm_num [filterOps, innerFn, volumeFilterFn_sell_eq, sellCheckOutcome, baseCheckStep,
      quoteCheckStep, decide_eq_true_eq, decide_eq_false_iff_not]
  · norm_num [filterOps, innerFn, volumeFilterFn_sell_eq, sellCheckOutcome, baseCheckStep,
      quoteCheckStep, sprintf7, round7, round_eq, decide_eq_true_eq,
      decide_eq_false_iff_not]

/-- C3 witness: the invariant theorem applied to Scenario A of the spec —
OTB base 80, cap 100, exact mode, one sell of amount 30 at price 10,
starting from the zero accumulator: the operation is trimmed to 20, the
final accumulator respects the cap and matches the emitted amount
exactly. -/
theorem tbb_cap_invariant_and_sum_witness :
    (⟨80, 800⟩ : VolumeFilterConfig).SellBaseAssetCapInBaseUnits
        + (⟨20, 200⟩ : VolumeFilterConfig).SellBaseAssetCapInBaseUnits ≤ 100
    ∧ |(⟨20, 200⟩ : VolumeFilterConfig).SellBaseAssetCapInBaseUnits
        - (⟨0, 0⟩ : VolumeFilterConfig).SellBaseAssetCapInBaseUnits
        - soldBaseAmounts [⟨assetXLM, assetUSD, NumStr.num 20, NumStr.num 10⟩]|
        ≤ ([⟨assetXLM, assetUSD, NumStr.num 20, NumStr.num 10⟩] :
            List ManageSellOffer).length * (1 / 20000000) :=
  tbb_cap_invariant_and_sum ⟨80, 800⟩ assetXLM assetUSD none volumeFilterMode.exact 100
    [⟨assetXLM, assetUSD, NumStr.num 30, NumStr.num 10⟩]
    (by
      intro op2 hm
      simp only [List.mem_singleton] at hm
      subst hm
      exact ⟨rfl, rfl, ⟨10, rfl, by norm_num⟩, ⟨30, rfl⟩⟩)
    ⟨0, 0⟩ ⟨20, 200⟩ [⟨assetXLM, assetUSD, NumStr.num 20, NumStr.num 10⟩]
    (by norm_num)
    (by norm_num [filterOps, innerFn, volumeFilterFn_sell_eq, sellCheckOutcome,
      baseCheckStep, quoteCheckStep, sprintf7, round7, round_eq,
      decide_eq_true_eq, decide_eq_false_iff_not])
